import Mathlib

/-!
Verification development for the ai_backend job-queue / analysis-pipeline
service (`src/app`).  Python code is shallowly embedded: dictionaries and
JSON values become the inductive `PyVal`, Python floats become exact
rationals (`ℚ`), fallible Python code becomes `Except PyErr`, the
PostgreSQL work store becomes an explicit `Store` record transformed by
pure functions, and the external collaborators (the LLM client, `json.loads`,
`pandas` file parsing, `exec` of synthesized code, wall-clock time) become
oracle parameters.  Each embedded definition keeps the name and the
control flow of the source function it models.
-/

/-- Embedding of a Python runtime value (the subset handled by this code:
`None`, booleans, numbers, strings, lists, and string-keyed dicts).
Python floats and ints are both modelled as exact rationals. -/
inductive PyVal where
  | pynone
  | pybool (b : Bool)
  | num (q : ℚ)
  | str (s : String)
  | list (xs : List PyVal)
  | dict (kvs : List (String × PyVal))

/-- Embedding of a raised Python exception: the carried string stands for
the exception class and message (only used for control flow). -/
structure PyErr where
  msg : String

/-- Python truthiness (`bool(v)`): `None`, `False`, `0`, the empty string,
the empty list and the empty dict are falsy. -/
def pyTruthy : PyVal → Bool
  | .pynone => false
  | .pybool b => b
  | .num q => q ≠ 0
  | .str s => s ≠ ""
  | .list xs => !xs.isEmpty
  | .dict kvs => !kvs.isEmpty

/-- Lookup of a string key in an embedded dict (first binding wins, as in a
Python dict built without duplicate keys). -/
def pyLookup (kvs : List (String × PyVal)) (k : String) : Option PyVal :=
  (kvs.find? (fun p => p.1 == k)).map (·.2)

/-- Python `v[k]` for a string key: `KeyError` when missing, `TypeError`
when `v` is not a dict (string keys never index lists). -/
def pySubscript (v : PyVal) (k : String) : Except PyErr PyVal :=
  match v with
  | .dict kvs =>
    match pyLookup kvs k with
    | some x => .ok x
    | none => .error ⟨"KeyError: " ++ k⟩
  | _ => .error ⟨"TypeError: value is not subscriptable by string"⟩

/-- Equality test of an embedded value against a string, as Python `==`
behaves inside `key in someList` (only a string can equal a string). -/
def pyValEqStr : PyVal → String → Bool
  | .str s, k => s == k
  | _, _ => false

/-- Python `k in v` for a string `k`: key test on dicts, membership on
lists, substring test on strings, `TypeError` otherwise. -/
def pyContains (v : PyVal) (k : String) : Except PyErr Bool :=
  match v with
  | .dict kvs => .ok (kvs.any (fun p => p.1 == k))
  | .list xs => .ok (xs.any (fun x => pyValEqStr x k))
  | .str s => .ok ((k.toSubstring.toString.isPrefixOf s) || (s.splitOn k).length > 1)
  | _ => .error ⟨"TypeError: argument of type is not iterable"⟩

/-- Python `v.get(k, d)`: total on dicts, `AttributeError` on anything
else (lists and scalars have no `.get`). -/
def pyGetD (v : PyVal) (k : String) (d : PyVal) : Except PyErr PyVal :=
  match v with
  | .dict kvs => .ok ((pyLookup kvs k).getD d)
  | _ => .error ⟨"AttributeError: value has no attribute get"⟩

/-- Python `v.get(k)` (default `None`). -/
def pyGet (v : PyVal) (k : String) : Except PyErr PyVal :=
  pyGetD v k .pynone

/-- Python `len(v)`: sized containers only, `TypeError` otherwise. -/
def pyLen (v : PyVal) : Except PyErr Nat :=
  match v with
  | .list xs => .ok xs.length
  | .dict kvs => .ok kvs.length
  | .str s => .ok s.length
  | _ => .error ⟨"TypeError: object has no len"⟩

/-- Numeric view used by `isinstance(x, (int, float))` checks: Python
booleans are instances of `int` (`True` converts to `1.0`). -/
def pyAsNum : PyVal → Option ℚ
  | .num q => some q
  | .pybool b => some (if b then 1 else 0)
  | _ => none

/-- Python `str(v)` as used in f-string interpolation (shape follows
CPython conventions closely enough for prompt construction). -/
def pyStr : PyVal → String
  | .pynone => "None"
  | .pybool b => if b then "True" else "False"
  | .num q => toString q
  | .str s => s
  | .list _ => "[...]"
  | .dict _ => "{...}"

/-- Python string slicing truthiness helper: `s[:100]` on an optional
string; `None[:100]` raises `TypeError` (used by `process_single_job`
which slices `business_description` before its try block). -/
def pySliceOptStr (v : Option String) (n : Nat) : Except PyErr String :=
  match v with
  | some s => .ok (String.mk (s.toList.take n))
  | none => .error ⟨"TypeError: NoneType object is not subscriptable"⟩

/-- Python `a or b` on optional strings (`None` and the empty string are
falsy), as in `result.get(...) or result.get(...)`. -/
def pyOrOptStr (a b : Option String) : Option String :=
  match a with
  | some s => if s ≠ "" then some s else b
  | none => b

/-- ASCII lowercasing of one character (model of `str.lower` on the
filename alphabet this code handles). -/
def asciiLower (c : Char) : Char :=
  if ('A' ≤ c && c ≤ 'Z') then Char.ofNat (c.toNat + 32) else c

/-- Model of Python `str.lower()`. -/
def pyLower (s : String) : String :=
  String.mk (s.toList.map asciiLower)

/-- Model of Python `str.split(sep)` for a one-character separator
(structural, so that it evaluates inside the kernel). -/
def splitCharList (sep : Char) : List Char → List (List Char)
  | [] => [[]]
  | c :: cs =>
    let r := splitCharList sep cs
    if c = sep then [] :: r
    else
      match r with
      | [] => [[c]]
      | g :: gs => (c :: g) :: gs

/-- Python `s.split(sep)` for a one-character separator. -/
def pySplitChar (sep : Char) (s : String) : List String :=
  (splitCharList sep s.toList).map String.mk

/-- `os.path.basename`: the part after the last slash. -/
def basename (p : String) : String :=
  (pySplitChar '/' p).getLastD ""

/-- utils.detect_file_type: classify by the lowercased extension
(the part after the last dot). -/
def detect_file_type (filename : String) : String :=
  let ext := (pySplitChar '.' (pyLower filename)).getLastD ""
  if ext = "csv" then "csv"
  else if ext = "xlsx" ∨ ext = "xls" then "excel"
  else "unknown"

/-- A cell of a loaded table: number, text, or missing value (pandas NaN /
None).  Floats again become exact rationals. -/
inductive Cell where
  | num (q : ℚ)
  | str (s : String)
  | null

/-- Embedding of a loaded `pandas.DataFrame`: column names plus rows
(each row lists one cell per column). -/
structure DataFrame where
  cols : List String
  rows : List (List Cell)

/-- Cells of column `i`. -/
def DataFrame.colCells (df : DataFrame) (i : Nat) : List Cell :=
  df.rows.map (fun r => r.getD i .null)

/-- Is a cell numeric or missing (pandas treats an all-numeric-or-NaN
column as numeric)? -/
def Cell.isNumOrNull : Cell → Bool
  | .num _ => true
  | .null => true
  | .str _ => false

/-- Modelled pandas dtype inference, collapsed to the two groups this
code distinguishes: an all-numeric-or-missing column is numeric dtype
(rendered "float64"), anything else is "object". -/
def inferDtype (cells : List Cell) : String :=
  if cells.all Cell.isNumOrNull then "float64" else "object"

/-- Cell as the runtime value appearing in `df.head(3).to_dict`. -/
def Cell.toPyVal : Cell → PyVal
  | .num q => .num q
  | .str s => .str s
  | .null => .pynone

/-- Per-file metadata produced by utils.format_dataframe_summary. -/
structure FileMeta where
  filename : String
  columns : List String
  shape : Nat × Nat
  sample_rows : List (List (String × PyVal))
  data_types : List (String × String)
  null_counts : List (String × Nat)
  numeric_columns : List String
  categorical_columns : List String

/-- utils.format_dataframe_summary: the full metadata record of a loaded
DataFrame (columns, shape, three sample rows, per-column dtypes, null
counts, numeric and categorical column lists); `filename` is a
placeholder later overwritten by the caller. -/
def format_dataframe_summary (df : DataFrame) : FileMeta :=
  let idxCols : List (Nat × String) := df.cols.enum
  { filename := "unknown"
    columns := df.cols
    shape := (df.rows.length, df.cols.length)
    sample_rows := (df.rows.take 3).map (fun r => idxCols.map
      (fun ci => (ci.2, (r.getD ci.1 .null).toPyVal)))
    data_types := idxCols.map (fun ci => (ci.2, inferDtype (df.colCells ci.1)))
    null_counts := idxCols.map (fun ci =>
      (ci.2, ((df.colCells ci.1).filter (fun c => match c with | .null => true | _ => false)).length))
    numeric_columns := (idxCols.filter (fun ci => inferDtype (df.colCells ci.1) == "float64")).map (·.2)
    categorical_columns := (idxCols.filter (fun ci => inferDtype (df.colCells ci.1) == "object")).map (·.2) }

/-- Result of the external parser (`pd.read_csv` / `pd.read_excel`) at one
path: a parsed table, or the message of the exception it raised (covers
missing files and malformed content alike). -/
inductive ParseOutcome where
  | table (df : DataFrame)
  | failure (msg : String)

/-- The file system / pandas oracle: what parsing each path yields. -/
def FileOracle := String → ParseOutcome

/-- utils.load_dataframe: dispatch on `detect_file_type`, parse via
pandas, and wrap every failure in `Failed to load {path}: {e}`. -/
def load_dataframe (fs : FileOracle) (file_path : String) : Except String DataFrame :=
  let ft := detect_file_type file_path
  if ft = "csv" ∨ ft = "excel" then
    match fs file_path with
    | .table df => .ok df
    | .failure m => .error ("Failed to load " ++ file_path ++ ": " ++ m)
  else
    .error ("Failed to load " ++ file_path ++ ": Unsupported file type: " ++ ft)

/-- utils.safe_json_parse given a parse oracle for `json.loads`: the
parsed value, or the fallback when parsing fails. -/
def safe_json_parse (jsonParse : String → Option PyVal) (text : String) (fallback : PyVal) : PyVal :=
  (jsonParse text).getD fallback

/-- A row of the `processing_jobs` table.  Ids are the strings psycopg
hands back (`str(result['id'])` is the identity on them); timestamps are
abstract ticks. -/
structure JobRow where
  id : String
  status : String
  file_id : Option String
  job_type : Option String
  business_description : Option String
  metadata : PyVal
  retry_count : Nat
  created_at : Nat
  started_at : Option Nat
  completed_at : Option Nat
  updated_at : Nat
  error_message : Option String

/-- A row of the `files` table (`files_data` bytes modelled as an opaque
string). -/
structure FileRow where
  id : String
  filename : String
  original_name : String
  file_path : Option String
  files_data : Option String
  mime_type : String
  file_size : Nat
  status : String

/-- A row of the `insights` table. -/
structure InsightRow where
  job_id : String
  file_id : Option String
  insight_type : String
  content : PyVal
  confidence_score : ℚ
  metadata : PyVal
  created_at : Nat

/-- The PostgreSQL work store: the three tables this service touches. -/
structure Store where
  jobs : List JobRow
  files : List FileRow
  insights : List InsightRow

/-- The shape `get_pending_job` adapts a claimed row into. -/
structure AdaptedJob where
  job_id : String
  business_description : Option String
  file_ids : List String
  priority : Nat
  metadata : PyVal
  created_at : Nat

/-- The row selected by `ORDER BY created_at ASC LIMIT 1`: minimal
`created_at`, ties resolved to the earlier row in storage order. -/
def selectOldest : List JobRow → Option JobRow
  | [] => none
  | r :: rs =>
    match selectOldest rs with
    | none => some r
    | some b => if b.created_at < r.created_at then some b else some r

/-- The row adaptation performed by `get_pending_job` after the UPDATE:
`business_description or job_type` (Python `or`, so empty/None falls
through; the `'General business analysis'` literal is a `.get` default on
a key the SELECT always returns, hence unreachable), `file_ids` a
singleton when `file_id` is truthy, fixed priority 1. -/
def adaptJob (j : JobRow) : AdaptedJob :=
  { job_id := j.id
    business_description := pyOrOptStr j.business_description j.job_type
    file_ids := match j.file_id with
      | some fid => if fid ≠ "" then [fid] else []
      | none => []
    priority := 1
    metadata := j.metadata
    created_at := j.created_at }

/-- The SET clause of the claiming UPDATE applied to the selected row. -/
def claimRow (now : Nat) (claimedId : String) (r : JobRow) : JobRow :=
  if r.id = claimedId then
    { r with status := "processing", started_at := some now, updated_at := now }
  else r

/-- DatabaseManager.get_pending_job: one atomic
`UPDATE .. WHERE id = (SELECT .. WHERE status = 'pending'
ORDER BY created_at ASC LIMIT 1 FOR UPDATE SKIP LOCKED) RETURNING ..`,
adapted to the runner format; `(none, unchanged)` when no row is pending. -/
def get_pending_job (now : Nat) (s : Store) : Option AdaptedJob × Store :=
  match selectOldest (s.jobs.filter (fun r => r.status == "pending")) with
  | none => (none, s)
  | some j =>
    (some (adaptJob j), { s with jobs := s.jobs.map (claimRow now j.id) })

/-- DatabaseManager.get_file_data: rows of `files` whose id is in the
requested list and whose status is `'uploaded'`. -/
def get_file_data (s : Store) (file_ids : List String) : List FileRow :=
  s.files.filter (fun f => file_ids.contains f.id && f.status == "uploaded")

/-- DatabaseManager.get_file_paths: keep `file_path` of each returned file
object; the source branches on `files_data` but both branches append
`file_path` exactly when it is truthy. -/
def get_file_paths (s : Store) (file_ids : List String) : List String :=
  (get_file_data s file_ids).foldr
    (fun fo acc =>
      match fo.files_data with
      | some bd =>
        if bd ≠ "" then
          (match fo.file_path with
           | some p => if p ≠ "" then p :: acc else acc
           | none => acc)
        else
          (match fo.file_path with
           | some p => if p ≠ "" then p :: acc else acc
           | none => acc)
      | none =>
        match fo.file_path with
        | some p => if p ≠ "" then p :: acc else acc
        | none => acc)
    []

/-- DatabaseManager.update_job_status: three UPDATE variants.  `completed`
also sets `completed_at` and writes the (possibly NULL) error message;
`failed` additionally increments `retry_count`; any other status writes
status and error message only. -/
def update_job_status (now : Nat) (job_id : String) (status : String)
    (error_message : Option String) (s : Store) : Store :=
  { s with jobs := s.jobs.map (fun r =>
      if r.id = job_id then
        if status = "completed" then
          { r with status := status, completed_at := some now,
                   updated_at := now, error_message := error_message }
        else if status = "failed" then
          { r with status := status, error_message := error_message,
                   retry_count := r.retry_count + 1, updated_at := now }
        else
          { r with status := status, error_message := error_message,
                   updated_at := now }
      else r) }

/-- DatabaseManager.should_retry_job: read the stored `retry_count` of the
job and allow a retry while it is strictly below 3; `false` when the job
does not exist. -/
def should_retry_job (s : Store) (job_id : String) : Bool :=
  match s.jobs.find? (fun r => r.id == job_id) with
  | some r => r.retry_count < 3
  | none => false

/-- DatabaseManager.reset_job_to_pending: back to `'pending'`, clearing
`started_at` and `error_message` (note: `retry_count` and `updated_at`
are left untouched). -/
def reset_job_to_pending (job_id : String) (s : Store) : Store :=
  { s with jobs := s.jobs.map (fun r =>
      if r.id = job_id then
        { r with status := "pending", started_at := none, error_message := none }
      else r) }

/-- One entry of the per-file metadata map built by the Data-Profile
stage: full metadata, or a per-file error record (`{"error": msg}`). -/
inductive MetaEntry where
  | ok (m : FileMeta)
  | err (msg : String)

/-- The members of the builtins whitelist handed to synthesized code. -/
inductive SafeBuiltin where
  | len | range | enumerate | zip | sum | max | min | abs | round
  | str | int | float | list | dict | print | sorted | any | all
  | importFn | dunderName
  deriving DecidableEq

/-- analysis_engine.get_safe_builtins: the exact whitelist of builtins
exposed to synthesized code (note that it includes `__import__`). -/
def get_safe_builtins : List (String × SafeBuiltin) :=
  [("len", .len), ("range", .range), ("enumerate", .enumerate),
   ("zip", .zip), ("sum", .sum), ("max", .max), ("min", .min),
   ("abs", .abs), ("round", .round), ("str", .str), ("int", .int),
   ("float", .float), ("list", .list), ("dict", .dict),
   ("print", .print), ("sorted", .sorted), ("any", .any), ("all", .all),
   ("__import__", .importFn), ("__name__", .dunderName)]

/-- Dangerous capability classes for executed code. -/
inductive SysCapability where
  | fileSystemAccess | networkAccess | processSpawn
  deriving DecidableEq

/-- Modelled from Python semantics (the interpreter, not this repository):
which dangerous capability a whitelisted builtin hands to the code using
it.  The ordinary computational builtins grant none; `__import__` can load
any module - in particular `os` and `pathlib` (filesystem), `socket` and
`urllib` (network), `subprocess` (process spawning) - so it grants all
three; the `__name__` entry is the inert string `"__main__"`. -/
def grantsCapability : SafeBuiltin → SysCapability → Bool
  | .importFn, _ => true
  | _, _ => false

/-- A capability is reachable from an execution environment when some
binding of the environment grants it. -/
def capabilityReachable (env : List (String × SafeBuiltin)) (c : SysCapability) : Bool :=
  env.any (fun p => grantsCapability p.2 c)

/-- Semantics of `exec(code, safe_globals, safe_locals)` followed by the
`analyze_data` lookup and call, as observed by `execute_analysis_code`.
The Python interpreter is external, so the behavior of one concrete code
string on one concrete argument is an oracle value of this type. -/
inductive ExecOutcome where
  | execRaises (msg : String)
  | noFunction
  | callRaises (msg : String)
  | callReturns (v : PyVal)

/-- Joint oracle for one sandbox run: the exec/call outcome plus whatever
the code wrote to the captured standard output. -/
structure ExecSem where
  outcome : ExecOutcome
  captured : String

/-- The fully-defaulted error object built by the outer except clause of
`execute_analysis_code`. -/
def execErrorResult (msg : String) : PyVal :=
  .dict [("error", .str ("Execution failed: " ++ msg)),
         ("metrics", .dict []),
         ("key_findings", .list [.str "Analysis could not be completed due to execution error"]),
         ("visualizations", .list []),
         ("recommendations", .list [.str "Please check data format and try again"])]

/-- analysis_engine.execute_analysis_code: run the synthesized code in the
restricted environment (globals limited to pandas/numpy/matplotlib/base64
/BytesIO plus `get_safe_builtins`), with `sys.stdout` temporarily replaced
by an in-memory buffer that is afterwards dropped.  An exec failure or a
raising `analyze_data` call is converted into `execErrorResult`; a missing
`analyze_data` yields a bare error dict; a normal return is passed through
unchanged.  `sem.captured` (the redirected stdout) is discarded. -/
def execute_analysis_code (sem : ExecSem) (file_paths : PyVal) : PyVal :=
  match sem.outcome with
  | .execRaises msg => execErrorResult msg
  | .noFunction => .dict [("error", .str "analyze_data function not found in generated code")]
  | .callRaises msg => execErrorResult msg
  | .callReturns v => v

/-- Does a result object have a given top-level field? -/
def hasKey (v : PyVal) (k : String) : Bool :=
  match v with
  | .dict kvs => kvs.any (fun p => p.1 == k)
  | _ => false

/-- A well-formed executor result in the sense of the specification:
either all four expected fields, or an `error` field. -/
def wellFormedResult (v : PyVal) : Bool :=
  (hasKey v "metrics" && hasKey v "key_findings" &&
   hasKey v "visualizations" && hasKey v "recommendations") || hasKey v "error"

/-- analysis_engine.extract_code_from_response: cut the fenced code block
out of an LLM reply (```python fence, bare ``` fence, else the whole
reply), then strip surrounding whitespace. -/
def extract_code_from_response (llm_response : String) : String :=
  let code :=
    if (llm_response.splitOn "```python").length > 1 then
      ((((llm_response.splitOn "```python").getD 1 "").splitOn "```").getD 0 "")
    else if (llm_response.splitOn "```").length > 1 then
      ((((llm_response.splitOn "```").getD 1 "").splitOn "```").getD 0 "")
    else llm_response
  code.trim

/-- analysis_engine.create_fallback_analysis_code: the fixed minimal
analysis routine (text abridged to its load-count-report skeleton; the
content is only ever consumed by the exec oracle). -/
def create_fallback_analysis_code : String :=
  "def analyze_data(file_paths):\n" ++
  "    results = \x7b\x27metrics\x27: \x7b\x7d, \x27key_findings\x27: [], " ++
  "\x27visualizations\x27: [], \x27recommendations\x27: []\x7d\n" ++
  "    try:\n" ++
  "        import pandas as pd\n" ++
  "        dfs = [pd.read_csv(p) if p.endswith(\x27.csv\x27) else pd.read_excel(p) for p in file_paths]\n" ++
  "        main_df = dfs[0] if dfs else pd.DataFrame()\n" ++
  "        results[\x27metrics\x27][\x27total_records\x27] = len(main_df)\n" ++
  "        results[\x27key_findings\x27].append(\x22Basic analysis completed\x22)\n" ++
  "        results[\x27recommendations\x27].append(\x22Review data for insights\x22)\n" ++
  "        return results\n" ++
  "    except Exception as e:\n" ++
  "        results[\x27error\x27] = str(e)\n" ++
  "        return results\n"

/-- The LLM client: `None` when Azure OpenAI initialization failed at
module load time, otherwise a `complete : prompt -> text` oracle whose
failures are exceptions. -/
def LlmClient := Option (String → Except PyErr String)

/-- analysis_engine.generate_analysis_code: build the synthesis prompt
(interpolating the suggestion title and description - a missing key
raises before the try block), call the LLM inside try, extract the code
block; any LLM failure (including a `None` client) falls back to
`create_fallback_analysis_code`. -/
def generate_analysis_code (llm : LlmClient) (suggestion : PyVal) (data_info : String) :
    Except PyErr String := do
  let title ← pySubscript suggestion "title"
  let descr ← pySubscript suggestion "description"
  let prompt :=
    "Generate Python code to analyze data for this business insight:\n\n" ++
    "INSIGHT: " ++ pyStr title ++ "\nDESCRIPTION: " ++ pyStr descr ++
    "\n\nDATA AVAILABLE:\n" ++ data_info ++
    "\n\nGenerate a complete analyze_data function (load files, analyze, " ++
    "one matplotlib visualization titled \x22" ++ pyStr title ++
    "\x22 saved as base64, recommendations).\n" ++
    "Generate ONLY the complete Python code with actual analysis logic. No explanations."
  match llm with
  | none => pure create_fallback_analysis_code
  | some complete =>
    match complete prompt with
    | .ok resp => pure (extract_code_from_response resp)
    | .error _ => pure create_fallback_analysis_code

/-- analysis_engine.get_data_structure_info: concatenate a description
block for every relevant file that has non-error metadata.  Iterating a
non-list or testing an unhashable element raises. -/
def get_data_structure_info (relevant_files : PyVal)
    (file_metadata : List (String × MetaEntry)) : Except PyErr String := do
  match relevant_files with
  | .list xs =>
    let blocks ← xs.mapM (fun x => do
      match x with
      | .str p =>
        match file_metadata.find? (fun e => e.1 == p) with
        | some (_, MetaEntry.ok m) =>
          pure ("\nFile: " ++ m.filename ++
                "\nColumns: " ++ String.intercalate ", " m.columns ++
                "\nShape: (" ++ toString m.shape.1 ++ ", " ++ toString m.shape.2 ++ ")" ++
                "\nData Types: " ++ String.intercalate ", " (m.data_types.map (fun dt => dt.1 ++ ": " ++ dt.2)) ++
                "\nSample Data: " ++ toString (m.sample_rows.take 2).length ++ " rows" ++
                "\nNumeric Columns: " ++ String.intercalate ", " m.numeric_columns ++
                "\nCategorical Columns: " ++ String.intercalate ", " m.categorical_columns ++
                "\n---\n")
        | some (_, MetaEntry.err _) => pure ""
        | none => pure ""
      | .list _ => .error ⟨"TypeError: unhashable type: list"⟩
      | .dict _ => .error ⟨"TypeError: unhashable type: dict"⟩
      | _ => pure "")
    pure (String.join blocks)
  | .str s => pure ""  -- iterating a string yields characters, none of which key the dict
  | _ => .error ⟨"TypeError: object is not iterable"⟩

/-- analysis_engine.generate_insight_summary: early fixed summary when the
analysis carries an `error` key; otherwise ask the LLM for a business
summary and fall back (inside `safe_json_parse` or in the except clause)
to summaries derived from the technical results.  Key lookups on the
suggestion happen outside any try and can raise. -/
def generate_insight_summary (llm : LlmClient) (jsonParse : String → Option PyVal)
    (suggestion : PyVal) (analysis_results : PyVal) : Except PyErr PyVal := do
  let hasErr ← pyContains analysis_results "error"
  if hasErr then do
    let title ← pySubscript suggestion "title"
    pure (.dict
      [("executive_summary", .str ("Analysis for " ++ pyStr title ++ " encountered issues")),
       ("key_findings", .list [.str "Technical analysis could not be completed"]),
       ("recommendations", .list [.str "Please check data quality and format"]),
       ("next_steps", .list [.str "Verify data integrity and retry analysis"])])
  else
    let attempt : Except PyErr PyVal := do
      let title ← pySubscript suggestion "title"
      let descr ← pySubscript suggestion "description"
      let metrics ← pyGetD analysis_results "metrics" (.dict [])
      let findings ← pyGetD analysis_results "key_findings" (.list [])
      let recs ← pyGetD analysis_results "recommendations" (.list [])
      let prompt :=
        "Convert these technical analysis results into clear business insights:\n\n" ++
        "ANALYSIS FOR: " ++ pyStr title ++ "\nDESCRIPTION: " ++ pyStr descr ++
        "\n\nTECHNICAL RESULTS:\n- Metrics: " ++ pyStr metrics ++
        "\n- Findings: " ++ pyStr findings ++
        "\n- Recommendations: " ++ pyStr recs ++
        "\n\nProvide business-friendly summary as JSON with keys " ++
        "executive_summary, key_findings, recommendations, next_steps."
      match llm with
      | none => .error ⟨"AttributeError: NoneType object has no attribute invoke"⟩
      | some complete => do
        let resp ← complete prompt
        let fallbackKf ← pyGetD analysis_results "key_findings" (.list [.str "Analysis in progress"])
        let fallbackRecs ← pyGetD analysis_results "recommendations" (.list [.str "Review results"])
        pure (safe_json_parse jsonParse resp (.dict
          [("executive_summary", .str ("Analysis completed for " ++ pyStr title)),
           ("key_findings", fallbackKf),
           ("recommendations", fallbackRecs),
           ("next_steps", .list [.str "Continue monitoring", .str "Implement recommendations"])]))
    match attempt with
    | .ok v => pure v
    | .error _ => do
      let title ← pySubscript suggestion "title"
      let kf ← pyGetD analysis_results "key_findings" (.list [.str "Analysis completed"])
      let recs ← pyGetD analysis_results "recommendations" (.list [.str "Review technical results"])
      pure (.dict
        [("executive_summary", .str ("Technical analysis completed for " ++ pyStr title)),
         ("key_findings", kf),
         ("recommendations", recs),
         ("next_steps", .list [.str "Analyze results", .str "Take action based on findings"])])

/-- The key-probing loop of `_extract_confidence_score`: first
confidence-like key whose numeric value lies in [0,1] (returned as is) or
in [0,100] (rescaled by /100); out-of-range or non-numeric values fall
through to the next key.  Probing a non-dict insight raises exactly where
Python would (`in` on scalars, indexing a list with a string). -/
def extractScoreLoop (insight : PyVal) : List String → Except PyErr (Option ℚ)
  | [] => pure none
  | k :: ks => do
    let present ← pyContains insight k
    if present then do
      let v ← pySubscript insight k
      match pyAsNum v with
      | some score =>
        if 0 ≤ score ∧ score ≤ 1 then pure (some score)
        else if 0 ≤ score ∧ score ≤ 100 then pure (some (score / 100))
        else extractScoreLoop insight ks
      | none => extractScoreLoop insight ks
    else extractScoreLoop insight ks

/-- DatabaseManager._extract_confidence_score: probe
`confidence, confidence_score, score, certainty`; otherwise 0.85 for an
insight with both findings and recommendations, 0.3 for one carrying an
error, else 0.7. -/
def extract_confidence_score (insight : PyVal) : Except PyErr ℚ := do
  match ← extractScoreLoop insight ["confidence", "confidence_score", "score", "certainty"] with
  | some q => pure q
  | none => do
    let kf ← pyGet insight "key_findings"
    let both ←
      if pyTruthy kf then do
        let recs ← pyGet insight "recommendations"
        pure (pyTruthy recs)
      else pure false
    if both then pure (85 / 100)
    else do
      let e ← pyGet insight "error"
      if pyTruthy e then pure (3 / 10) else pure (7 / 10)

/-- The `file_id` lookup at the start of `save_analysis_results`
(`SELECT file_id FROM processing_jobs WHERE id = ...`; a missing job row
degrades to NULL). -/
def lookupJobFileId (s : Store) (job_id : String) : Option String :=
  match s.jobs.find? (fun r => r.id == job_id) with
  | some r => r.file_id
  | none => none

/-- The row `save_analysis_results` assembles and INSERTs for a non-empty
insight list: per-insight confidences are extracted and averaged, the
aggregate metadata and the 3-title summary label are built (each `.get`
or `len` on a malformed insight raising exactly where Python would), and
everything is stored as one `insights` row. -/
def buildInsightRow (now : Nat) (job_id : String) (file_id : Option String)
    (insights : List PyVal) : Except PyErr InsightRow := do
  let confs ← insights.mapM extract_confidence_score
  let overall_confidence : ℚ :=
    if insights.length > 0 then confs.sum / insights.length else 7 / 10
  let titles ← insights.mapM (fun i => pyGetD i "title" (.str "General Analysis"))
  let metricLens ← insights.mapM (fun i => do pyLen (← pyGetD i "metrics" (.dict [])))
  let findingLens ← insights.mapM (fun i => do pyLen (← pyGetD i "key_findings" (.list [])))
  let recLens ← insights.mapM (fun i => do pyLen (← pyGetD i "recommendations" (.list [])))
  let vizLens ← insights.mapM (fun i => do pyLen (← pyGetD i "visualizations" (.list [])))
  let generatedAt ← match insights.head? with
    | some i => pyGet i "generated_at"
    | none => pure .pynone
  let statuses ← insights.mapM (fun i => pyGet i "status")
  let execStatus :=
    if statuses.all (fun st => !(pyValEqStr st "error")) then "success" else "partial_success"
  let metadata : PyVal := .dict
    [("total_insights", .num insights.length),
     ("insight_types", .list titles),
     ("analysis_summary", .dict
       [("total_metrics", .num metricLens.sum),
        ("total_findings", .num findingLens.sum),
        ("total_recommendations", .num recLens.sum),
        ("total_visualizations", .num vizLens.sum)]),
     ("execution_info", .dict
       [("generated_at", generatedAt),
        ("status", .str execStatus)])]
  let summaryTitles ← (insights.take 3).mapM (fun i => do
    match ← pyGetD i "title" (.str "General Analysis") with
    | .str t => pure t
    | _ => Except.error ⟨"TypeError: sequence item: expected str instance"⟩)
  let insight_type_summary :=
    String.intercalate ", " summaryTitles ++
    (if insights.length > 3 then " (+" ++ toString (insights.length - 3) ++ " more)" else "")
  pure
    { job_id := job_id
      file_id := file_id
      insight_type := insight_type_summary
      content := .dict
        [("final_insights", .list insights),
         ("summary", .dict
           [("total_insights", .num insights.length),
            ("overall_confidence", .num overall_confidence),
            ("analysis_complete", .pybool true)])]
      confidence_score := overall_confidence
      metadata := metadata
      created_at := now }

/-- DatabaseManager.save_analysis_results: everything is wrapped in a
try/except that only logs, and the single INSERT is the only mutation -
so on any store fault (`dbFault`: unreachable store or failing INSERT,
rolled back by the connection context manager) or any raising step the
store comes back unchanged, and with zero insights the method returns
before the INSERT (a warning, not an error).  `results` is the pipeline
state dict; the method reads its `final_insights`. -/
def save_analysis_results (dbFault : Bool) (now : Nat) (job_id : String)
    (final_insights : List PyVal) (s : Store) : Store :=
  if dbFault then s
  else
    let file_id := lookupJobFileId s job_id
    if final_insights.isEmpty then s
    else
      match buildInsightRow now job_id file_id final_insights with
      | .ok row => { s with insights := s.insights ++ [row] }
      | .error _ => s

/-- The accumulating pipeline state (workflow_types.InsightState).  Fields
filled by LLM-derived JSON keep the dynamic type `PyVal`; the description
is optional because the job row may carry NULL. -/
structure InsightState where
  files : List String
  business_description : Option String
  file_metadata : List (String × MetaEntry)
  business_understanding : PyVal
  help_suggestions : PyVal
  file_mappings : List (String × PyVal)
  final_insights : List PyVal
  current_step : String

/-- F-string interpolation of the possibly-NULL business description. -/
def optStrInterp : Option String → String
  | some s => s
  | none => "None"

/-- The hashable-key coercion of a Python dict key: strings key directly,
other scalars are hashable and tagged injectively, containers raise
`TypeError: unhashable type`. -/
def hashableKey : PyVal → Except PyErr String
  | .str s => .ok s
  | .num q => .ok ("#num:" ++ toString q)
  | .pybool b => .ok ("#bool:" ++ toString b)
  | .pynone => .ok "#none"
  | .list _ => .error ⟨"TypeError: unhashable type: list"⟩
  | .dict _ => .error ⟨"TypeError: unhashable type: dict"⟩

/-- Python dict assignment `d[k] = v`: overwrite in place or append. -/
def dictInsert (kvs : List (String × PyVal)) (k : String) (v : PyVal) :
    List (String × PyVal) :=
  if kvs.any (fun p => p.1 == k) then
    kvs.map (fun p => if p.1 == k then (k, v) else p)
  else kvs ++ [(k, v)]

/-- The per-file body of the Data-Profile loop: the full metadata of a
loadable file (with the basename recorded as its filename), or the
`{"error": str(e)}` entry of one that fails to load. -/
def profileEntry (fs : FileOracle) (p : String) : MetaEntry :=
  match load_dataframe fs p with
  | .ok df => MetaEntry.ok { format_dataframe_summary df with filename := basename p }
  | .error e => MetaEntry.err e

/-- workflow_nodes.analyze_data_node (Data-Profile stage): per input file,
load it and record its full metadata with the basename as filename, or -
when loading raises - record `{"error": str(e)}` for that file alone and
continue; then extend the state with the metadata map and the step
marker. -/
def analyze_data_node (fs : FileOracle) (state : InsightState) : InsightState :=
  let metadata := state.files.map (fun p => (p, profileEntry fs p))
  { state with file_metadata := metadata, current_step := "analyze_data_complete" }

/-- workflow_nodes.create_data_summary: one short block per successfully
profiled file (row/column counts, first five column names). -/
def create_data_summary (file_metadata : List (String × MetaEntry)) : String :=
  String.join (file_metadata.map (fun e =>
    match e.2 with
    | .ok m =>
      "File: " ++ m.filename ++ "\n- " ++ toString m.shape.1 ++ " rows, " ++
      toString m.shape.2 ++ " columns\n- Columns: " ++
      String.intercalate ", " (m.columns.take 5) ++ "\n\n"
    | .err _ => ""))

/-- The try-block body of `understand_business_node`: prompt the LLM,
parse with the generic fallback, and read the two owned fields (the
success log line first evaluates `len(result["help_suggestions"])`). -/
def understandAttempt (complete : String → Except PyErr String)
    (jsonParse : String → Option PyVal) (state : InsightState) :
    Except PyErr (PyVal × PyVal) := do
  let data_summary := create_data_summary state.file_metadata
  let prompt :=
    "Analyze this business and data:\n\nBUSINESS: " ++
    optStrInterp state.business_description ++
    "\n\nDATA FILES:\n" ++ data_summary ++
    "\n\nProvide JSON response with business_understanding and a list " ++
    "help_suggestions of title/description/priority objects.\n\n" ++
    "Generate exactly 3 help suggestions."
  let resp ← complete prompt
  let result := safe_json_parse jsonParse resp (.dict
    [("business_understanding", .str "Analysis in progress..."),
     ("help_suggestions", .list [.dict
       [("title", .str "General Analysis"),
        ("description", .str "Basic data insights"),
        ("priority", .str "medium")]])])
  let hsLogged ← pySubscript result "help_suggestions"
  let _ ← pyLen hsLogged
  let bu ← pySubscript result "business_understanding"
  let hs ← pySubscript result "help_suggestions"
  pure (bu, hs)

/-- workflow_nodes.understand_business_node (Business-Understanding
stage): with no LLM client, a fixed degraded result under the error
marker; otherwise prompt the LLM, parse with a generic fallback, and
store the two owned fields - any raise (LLM call, missing keys or
unsized `help_suggestions` in the parsed JSON, evaluated by the success
log line) is caught and only the error marker is recorded. -/
def understand_business_node (llm : LlmClient) (jsonParse : String → Option PyVal)
    (state : InsightState) : InsightState :=
  match llm with
  | none =>
    { state with
      business_understanding := .str "LLM not available"
      help_suggestions := .list [.dict
        [("title", .str "General Analysis"),
         ("description", .str "Basic data insights"),
         ("priority", .str "medium")]]
      current_step := "business_understanding_error" }
  | some complete =>
    match understandAttempt complete jsonParse state with
    | .ok (bu, hs) =>
      { state with
        business_understanding := bu
        help_suggestions := hs
        current_step := "business_understanding_complete" }
    | .error _ => { state with current_step := "business_understanding_error" }

/-- Does one metadata entry match a filename value returned by the model
(`metadata.get("filename") == filename`)?  Error entries have no
`filename` key, so `.get` yields `None`, which matches a JSON `null`. -/
def metaFilenameEq (e : MetaEntry) (v : PyVal) : Bool :=
  match e with
  | .ok m => pyValEqStr v m.filename
  | .err _ => match v with | .pynone => true | _ => false

/-- The filename-to-path mapping loop of `map_files_to_insights_node`:
for each model-returned name, append the first metadata path whose
recorded filename equals it; unmatched names are silently dropped. -/
def mapNamesToPaths (file_metadata : List (String × MetaEntry)) (names : List PyVal) :
    List PyVal :=
  names.foldl (fun acc v =>
    match file_metadata.find? (fun e => metaFilenameEq e.2 v) with
    | some e => acc ++ [.str e.1]
    | none => acc) []

/-- Iterating a Python value with `for`: lists yield elements, strings
yield one-character strings, dicts yield their keys; anything else raises
`TypeError`. -/
def pyIter (v : PyVal) : Except PyErr (List PyVal) :=
  match v with
  | .list xs => .ok xs
  | .str s => .ok (s.toList.map (fun c => .str (String.mk [c])))
  | .dict kvs => .ok (kvs.map (fun p => .str p.1))
  | _ => .error ⟨"TypeError: object is not iterable"⟩

/-- workflow_nodes.map_files_to_insights_node (File-Mapping stage): ask
the LLM per suggestion which profiled files are relevant and map the
returned names back to paths; a per-suggestion failure inside the inner
try falls back to the first stored file; a failure outside it (iterating
a non-list of suggestions, a suggestion without title/description, an
unhashable title) aborts the stage with only the error marker, dropping
all mappings. -/
def mapFilesAttempt (llm : LlmClient) (jsonParse : String → Option PyVal)
    (state : InsightState) : Except PyErr (List (String × PyVal)) := do
    let file_descriptions := String.join (state.file_metadata.map (fun e =>
      match e.2 with
      | .ok m => m.filename ++ ": " ++ String.intercalate ", " m.columns ++ "\n"
      | .err _ => ""))
    let suggestions ← pyIter state.help_suggestions
    suggestions.foldlM (fun mappings suggestion => do
      let title ← pySubscript suggestion "title"
      let descr ← pySubscript suggestion "description"
      let prompt :=
        "Which files are most relevant for this insight?\n\nINSIGHT: " ++
        pyStr title ++ " - " ++ pyStr descr ++
        "\n\nAVAILABLE FILES:\n" ++ file_descriptions ++
        "\n\nReturn JSON with relevant_files, confidence, reasoning."
      let inner : Except PyErr PyVal := do
        match llm with
        | none => .error ⟨"AttributeError: NoneType object has no attribute invoke"⟩
        | some complete => do
          let resp ← complete prompt
          let fallback : PyVal := .dict
            [("relevant_files", .list (match state.file_metadata.head? with
                | some e => [.str e.1]
                | none => [])),
             ("confidence", .str "medium"),
             ("reasoning", .str "fallback mapping")]
          let result := safe_json_parse jsonParse resp fallback
          let rf ← pySubscript result "relevant_files"
          let names ← pyIter rf
          let relevant_files := mapNamesToPaths state.file_metadata names
          let conf ← pyGetD result "confidence" (.str "medium")
          let reasoning ← pyGetD result "reasoning" (.str "")
          pure (.dict
            [("relevant_files", .list relevant_files),
             ("confidence", conf),
             ("reasoning", reasoning)])
      let entry :=
        match inner with
        | .ok v => v
        | .error _ => .dict
            [("relevant_files", .list ((state.files.take 1).map .str)),
             ("confidence", .str "low"),
             ("reasoning", .str "fallback due to error")]
      let key ← hashableKey title
      pure (dictInsert mappings key entry)) []

/-- workflow_nodes.map_files_to_insights_node: store the computed
mappings, or only the error marker when the attempt raised. -/
def map_files_to_insights_node (llm : LlmClient) (jsonParse : String → Option PyVal)
    (state : InsightState) : InsightState :=
  match mapFilesAttempt llm jsonParse state with
  | .ok mappings =>
    { state with file_mappings := mappings, current_step := "file_mapping_complete" }
  | .error _ => { state with current_step := "file_mapping_error" }

/-- workflow_nodes.calculate_insight_confidence: 0.5 base, additive
boosts for metrics/findings/visualizations/recommendations, smaller
boosts for a substantial executive summary and next steps, a 0.3 penalty
for an `error` key, clamped into [0.1, 0.95].  Truthiness guards
short-circuit the `len` calls exactly as in the source. -/
def calculate_insight_confidence (analysis_results business_insights : PyVal) :
    Except PyErr ℚ := do
  let c0 : ℚ := 1 / 2
  let m ← pyGet analysis_results "metrics"
  let c1 ←
    if pyTruthy m then do
      let l ← pyLen m
      pure (if l > 0 then c0 + 15 / 100 else c0)
    else pure c0
  let kf ← pyGet analysis_results "key_findings"
  let c2 ←
    if pyTruthy kf then do
      let l ← pyLen kf
      pure (if l > 0 then c1 + 1 / 10 else c1)
    else pure c1
  let viz ← pyGet analysis_results "visualizations"
  let c3 ←
    if pyTruthy viz then do
      let l ← pyLen viz
      pure (if l > 0 then c2 + 1 / 10 else c2)
    else pure c2
  let recs ← pyGet analysis_results "recommendations"
  let c4 ←
    if pyTruthy recs then do
      let l ← pyLen recs
      pure (if l > 0 then c3 + 1 / 10 else c3)
    else pure c3
  let es ← pyGet business_insights "executive_summary"
  let c5 ←
    if pyTruthy es then do
      let l ← pyLen es
      pure (if l > 50 then c4 + 5 / 100 else c4)
    else pure c4
  let ns ← pyGet business_insights "next_steps"
  let c6 ←
    if pyTruthy ns then do
      let l ← pyLen ns
      pure (if l > 0 then c5 + 5 / 100 else c5)
    else pure c5
  let hasErr ← pyContains analysis_results "error"
  let c7 := if hasErr then c6 - 3 / 10 else c6
  pure (max (1 / 10) (min (95 / 100) c7))

/-- One iteration of the per-suggestion loop in
`generate_insights_node`: resolve the relevant files (all files when the
mapping is empty), describe them, synthesize and execute analysis code,
summarize, score, and assemble the Insight Record dict. -/
def processSuggestion (llm : LlmClient) (jsonParse : String → Option PyVal)
    (execOracle : String → PyVal → ExecSem) (nowIso : String)
    (state : InsightState) (suggestion : PyVal) : Except PyErr PyVal := do
  let title ← pySubscript suggestion "title"
  let titleKey ← hashableKey title
  let mapping := ((state.file_mappings.find? (fun p => p.1 == titleKey)).map (·.2)).getD (.dict [])
  let rf ← pyGetD mapping "relevant_files" (.list [])
  let relevant_files := if pyTruthy rf then rf else .list (state.files.map .str)
  let data_info ← get_data_structure_info relevant_files state.file_metadata
  let analysis_code ← generate_analysis_code llm suggestion data_info
  let analysis_results := execute_analysis_code (execOracle analysis_code relevant_files) relevant_files
  let business_insights ← generate_insight_summary llm jsonParse suggestion analysis_results
  let confidence_score ← calculate_insight_confidence analysis_results business_insights
  let descr ← pyGetD suggestion "description" (.str "")
  let priority ← pySubscript suggestion "priority"
  let atype ← pyGetD suggestion "type" (.str "business_analysis")
  let fileVals ← pyIter relevant_files
  let files_used ← fileVals.mapM (fun x =>
    match x with
    | PyVal.str p => pure (PyVal.str (basename p))
    | _ => Except.error ⟨"TypeError: expected str, bytes or os.PathLike object"⟩)
  let metrics ← pyGetD analysis_results "metrics" (.dict [])
  let kf ← pyGetD analysis_results "key_findings" (.list [])
  let recs ← pyGetD analysis_results "recommendations" (.list [])
  let viz ← pyGetD analysis_results "visualizations" (.list [])
  let es ← pyGetD business_insights "executive_summary" (.str "")
  let bf ← pyGetD business_insights "key_findings" (.list [])
  let brecs ← pyGetD business_insights "recommendations" (.list [])
  let ns ← pyGetD business_insights "next_steps" (.list [])
  let hasErr ← pyContains analysis_results "error"
  let errMsg ← if hasErr then pyGet analysis_results "error" else pure PyVal.pynone
  let execTime ← pyGet analysis_results "execution_time"
  pure (.dict
    [("title", title), ("description", descr), ("priority", priority),
     ("analysis_type", atype), ("files_used", .list files_used),
     ("data_sources", relevant_files),
     ("confidence", .num confidence_score),
     ("confidence_score", .num confidence_score),
     ("metrics", metrics), ("key_findings", kf),
     ("recommendations", recs), ("visualizations", viz),
     ("executive_summary", es), ("business_findings", bf),
     ("business_recommendations", brecs), ("next_steps", ns),
     ("generated_at", .str nowIso),
     ("status", .str (if hasErr then "error" else "success")),
     ("error_message", errMsg), ("execution_time", execTime),
     ("analysis_results", analysis_results), ("insights", business_insights)])

/-- The suggestion loop with partial-result semantics: the Python list
keeps the insights appended before a raise. -/
def genInsightsLoop (llm : LlmClient) (jsonParse : String → Option PyVal)
    (execOracle : String → PyVal → ExecSem) (nowIso : String)
    (state : InsightState) :
    List PyVal → List PyVal → List PyVal × Bool
  | [], acc => (acc, true)
  | suggestion :: rest, acc =>
    match processSuggestion llm jsonParse execOracle nowIso state suggestion with
    | .ok insight => genInsightsLoop llm jsonParse execOracle nowIso state rest (acc ++ [insight])
    | .error _ => (acc, false)

/-- workflow_nodes.generate_insights_node (Insight-Generation stage):
process every help suggestion through synthesis, sandboxed execution,
summarization and scoring; a raise anywhere in the loop stops it but the
already-built partial insight list is still stored, under the error step
marker. -/
def generate_insights_node (llm : LlmClient) (jsonParse : String → Option PyVal)
    (execOracle : String → PyVal → ExecSem) (nowIso : String)
    (state : InsightState) : InsightState :=
  match pyIter state.help_suggestions with
  | .error _ => { state with final_insights := [], current_step := "insights_error" }
  | .ok suggestions =>
    match genInsightsLoop llm jsonParse execOracle nowIso state suggestions [] with
    | (acc, true) => { state with final_insights := acc, current_step := "insights_complete" }
    | (acc, false) => { state with final_insights := acc, current_step := "insights_error" }

/-- The tagged result of ai_workflow.run_complete_workflow. -/
structure WfRes where
  status : String
  data : InsightState
  error : Option String

/-- ai_workflow.run_complete_workflow for path inputs: build the fresh
initial state, invoke the compiled four-stage graph (the LangGraph
machinery is external, an oracle), and tag the outcome - `success` with
the final state, or `error` with the exception text and the initial
state. -/
def run_complete_workflow (graphInvoke : InsightState → Except String InsightState)
    (files : List String) (business_description : Option String) : WfRes :=
  let initial_state : InsightState :=
    { files := files
      business_description := business_description
      file_metadata := []
      business_understanding := .str ""
      help_suggestions := .list []
      file_mappings := []
      final_insights := []
      current_step := "initialized" }
  match graphInvoke initial_state with
  | .ok result => { status := "success", data := result, error := none }
  | .error e => { status := "error", data := initial_state, error := some e }

/-- Outcome of the `run_complete_workflow(...)` call as seen from
`process_single_job`: a returned tagged result, or an exception escaping
the call (the runner except-branch exists for exactly that case). -/
inductive WfCall where
  | returns (r : WfRes)
  | raises (msg : String)

/-- job_processor.JobProcessor.process_single_job: slice the description
for the log line (outside the try - a NULL description raises out of the
method), resolve file paths; with none, mark `failed` immediately.
Otherwise run the workflow: on a `success` result save the insights and
mark `completed`; on any other returned status mark `failed` with the
reported error; on an exception escaping the workflow call consult
`should_retry_job` and either reset the job to pending or mark it
permanently `failed`. -/
def process_single_job (wfCall : List String → Option String → WfCall)
    (dbFault : Bool) (now : Nat) (job : AdaptedJob) (s : Store) :
    Except PyErr (Bool × Store) := do
  let _ ← pySliceOptStr job.business_description 100
  let file_paths := get_file_paths s job.file_ids
  if file_paths.isEmpty then
    pure (false, update_job_status now job.job_id "failed"
      (some ("No valid files found for IDs: " ++ String.intercalate ", " job.file_ids)) s)
  else
    match wfCall file_paths job.business_description with
    | .returns result =>
      if result.status = "success" then
        let s1 := save_analysis_results dbFault now job.job_id result.data.final_insights s
        let s2 := update_job_status now job.job_id "completed" none s1
        pure (true, s2)
      else
        let error_msg := result.error.getD "Unknown workflow error"
        pure (false, update_job_status now job.job_id "failed" (some error_msg) s)
    | .raises e =>
      let error_msg := "Job processing error: " ++ e
      if should_retry_job s job.job_id then
        pure (false, reset_job_to_pending job.job_id s)
      else
        pure (false, update_job_status now job.job_id "failed" (some error_msg) s)

/-- job_processor.JobProcessor.run_once: claim the next pending job and
process it; its try/except turns an escaping exception into a plain
`False` (the only raise point of `process_single_job` lies before any
store mutation). -/
def run_once (wfCall : List String → Option String → WfCall)
    (dbFault : Bool) (now : Nat) (s : Store) : Bool × Store :=
  match get_pending_job now s with
  | (none, s1) => (false, s1)
  | (some job, s1) =>
    match process_single_job wfCall dbFault now job s1 with
    | .ok r => r
    | .error _ => (false, s1)

/-- A concurrent system: the shared store plus, per runner, the jobs it
has claimed and not yet finished (runner-local knowledge, not a column). -/
structure Sys where
  store : Store
  holding : List (Nat × String)

/-- The terminal store mutations a runner performs on the job it holds,
one constructor per exit path of `process_single_job`: success (save then
mark completed), a reported failure or empty file list (mark failed), or
an escaped exception (retry-or-fail decision). -/
inductive FinishOut where
  | completed (dbFault : Bool) (final_insights : List PyVal) (now : Nat)
  | wfFailed (err : String) (now : Nat)
  | raised (err : String) (now : Nat)

/-- Apply one finish outcome for job `j` to the store. -/
def finishStore (j : String) (s : Store) : FinishOut → Store
  | .completed dbFault fi now =>
    update_job_status now j "completed" none (save_analysis_results dbFault now j fi s)
  | .wfFailed e now => update_job_status now j "failed" (some e) s
  | .raised e now =>
    if should_retry_job s j then reset_job_to_pending j s
    else update_job_status now j "failed" (some ("Job processing error: " ++ e)) s

/-- Interleaved steps of any number of runners against one store.  A
claim is the single atomic claiming UPDATE of `get_pending_job` (its
`FOR UPDATE SKIP LOCKED` subquery makes concurrent claims serialize
without blocking, so each executes against the store left by the
previous one); a finish applies the held job's terminal mutations and
releases it. -/
inductive SysStep : Sys → Sys → Prop where
  | claim (σ : Sys) (r now : Nat) (aj : AdaptedJob) (s' : Store) :
      get_pending_job now σ.store = (some aj, s') →
      SysStep σ ⟨s', (r, aj.job_id) :: σ.holding⟩
  | claimIdle (σ : Sys) (now : Nat) :
      get_pending_job now σ.store = (none, σ.store) →
      SysStep σ σ
  | finish (σ : Sys) (r : Nat) (j : String) (out : FinishOut) :
      (r, j) ∈ σ.holding →
      SysStep σ ⟨finishStore j σ.store out, σ.holding.filter (fun p => p ≠ (r, j))⟩

/-- Reachability through interleaved runner steps. -/
inductive SysReach (σ0 : Sys) : Sys → Prop where
  | refl : SysReach σ0 σ0
  | tail {σ1 σ2 : Sys} : SysReach σ0 σ1 → SysStep σ1 σ2 → SysReach σ0 σ2

/-- Job ids are unique in the table (primary key). -/
def uniqueIds (s : Store) : Prop := (s.jobs.map (fun r => r.id)).Nodup

/-- The concurrency invariant: ids stay unique, every held job is
`processing` in the store, and no job is held by two runners. -/
def SysInv (σ : Sys) : Prop :=
  uniqueIds σ.store ∧
  ∀ r j, (r, j) ∈ σ.holding →
    (∃ row ∈ σ.store.jobs, row.id = j ∧ row.status = "processing") ∧
    ∀ r2, (r2, j) ∈ σ.holding → r2 = r

/-- Fixture: a pending job row created at tick 3. -/
def jrowW1 : JobRow :=
  { id := "j1", status := "pending", file_id := some "f1",
    job_type := some "analysis", business_description := some "desc",
    metadata := .dict [], retry_count := 0, created_at := 3,
    started_at := none, completed_at := none, updated_at := 0,
    error_message := none }

/-- Fixture: a younger pending job row (created at tick 5). -/
def jrowW2 : JobRow :=
  { jrowW1 with id := "j2", created_at := 5 }

/-- Fixture: an uploaded file row with an on-disk path. -/
def frowW : FileRow :=
  { id := "f1", filename := "data.csv", original_name := "data.csv",
    file_path := some "/tmp/data.csv", files_data := none,
    mime_type := "text/csv", file_size := 10, status := "uploaded" }

/-- Fixture: a store with two pending jobs (the older one is `j1`). -/
def storeC2 : Store := { jobs := [jrowW2, jrowW1], files := [frowW], insights := [] }

/-- Fixture: a store whose only job is not pending. -/
def storeNoPending : Store :=
  { jobs := [{ jrowW1 with status := "completed" }], files := [], insights := [] }

/-- Fixture: a store with a single fresh pending job. -/
def storeOneJob : Store := { jobs := [jrowW1], files := [frowW], insights := [] }

/-- Fixture: the adapted form of `jrowW1` as returned by a claim. -/
def ajW : AdaptedJob :=
  { job_id := "j1", business_description := some "desc", file_ids := ["f1"],
    priority := 1, metadata := .dict [], created_at := 3 }

/-- Fixture: `storeOneJob` after runner 0 claimed `j1` at tick 5. -/
def storeOneJobClaimed : Store :=
  { jobs := [{ jrowW1 with status := "processing", started_at := some 5, updated_at := 5 }],
    files := [frowW], insights := [] }

/-- Fixture: the idle two-runner system over `storeOneJob`. -/
def sysW0 : Sys := { store := storeOneJob, holding := [] }

/-- Fixture: the system after runner 0 claimed `j1`. -/
def sysW1 : Sys := { store := storeOneJobClaimed, holding := [(0, "j1")] }

/-- Fixture: a workflow call that always raises (a job whose processing
always throws). -/
def wfRaiseAlways : List String → Option String → WfCall := fun _ _ => .raises "boom"

/-- One claim-and-fail cycle of the runner on a store (claim the job,
have the workflow call raise, apply the retry decision). -/
def failCycle (s : Store) : Store := (run_once wfRaiseAlways false 5 s).2

/-- Iterated claim-and-fail cycles. -/
def iterFailCycle : Nat → Store → Store
  | 0, s => s
  | n + 1, s => iterFailCycle n (failCycle s)

/-- Fixture: `storeOneJob` after one full fail cycle (back to pending,
retry_count untouched). -/
def storeCycled : Store :=
  { jobs := [{ jrowW1 with updated_at := 5 }], files := [frowW], insights := [] }

/-- Fixture: a graph invocation that raises a stage exception, which
`run_complete_workflow` converts into a `status = "error"` result. -/
def graphFailW : InsightState → Except String InsightState := fun _ => .error "stage failed"

/-- Fixture: the workflow call as the runner sees it when the pipeline
reports failure. -/
def wfErrorReturn : List String → Option String → WfCall :=
  fun files bd => .returns (run_complete_workflow graphFailW files bd)

/-- Fixture: `storeOneJobClaimed` after the runner handled a reported
pipeline failure at tick 6 (marked failed, retry_count incremented). -/
def jrowFailedOnce : JobRow :=
  { jrowW1 with
    status := "failed"
    started_at := some 5
    updated_at := 6
    retry_count := 1
    error_message := some "stage failed" }

/-- Fixture store holding `jrowFailedOnce` alone. -/
def storeFailedOnce : Store :=
  { jobs := [jrowFailedOnce], files := [frowW], insights := [] }

/-- Fixture: a graph invocation that succeeds with one insight. -/
def graphOkW : InsightState → Except String InsightState :=
  fun st => .ok { st with
    final_insights := [PyVal.dict [("title", PyVal.str "T")]]
    current_step := "insights_complete" }

/-- Fixture: the workflow call as the runner sees a successful pipeline. -/
def wfSuccessReturn : List String → Option String → WfCall :=
  fun files bd => .returns (run_complete_workflow graphOkW files bd)

/-- Fixture: three insights with explicit confidence scores 0.9, 0.7, 0.5. -/
def insightsW : List PyVal :=
  [.dict [("confidence", .num (mkRat 9 10))],
   .dict [("confidence", .num (mkRat 7 10))],
   .dict [("confidence", .num (mkRat 1 2))]]

/-- Fixture: a small loadable table. -/
def dfW : DataFrame :=
  { cols := ["Date", "Sales"],
    rows := [[.str "d1", .num 5], [.str "d2", .null]] }

/-- Fixture: a file system in which `b.csv` fails to parse and the other
two CSVs load. -/
def fsW : FileOracle := fun p =>
  if p = "a.csv" then .table dfW
  else if p = "b.csv" then .failure "bad header"
  else if p = "c.csv" then .table dfW
  else .failure "no such file"

/-- Fixture: an initial pipeline state over the three test files. -/
def stateW8 : InsightState :=
  { files := ["a.csv", "b.csv", "c.csv"]
    business_description := some "desc"
    file_metadata := []
    business_understanding := .str ""
    help_suggestions := .list []
    file_mappings := []
    final_insights := []
    current_step := "initialized" }

theorem selectOldest_eq_none {l : List JobRow} : selectOldest l = none ↔ l = [] := by
  induction l with
  | nil => simp [selectOldest]
  | cons r rs ih =>
    simp only [selectOldest]
    cases h : selectOldest rs with
    | none => simp
    | some b =>
      constructor
      · intro hc
        by_cases hlt : b.created_at < r.created_at <;> simp [hlt] at hc
      · intro hc
        exact absurd hc (List.cons_ne_nil r rs)

theorem selectOldest_spec {l : List JobRow} {j : JobRow} (h : selectOldest l = some j) :
    j ∈ l ∧ ∀ x ∈ l, j.created_at ≤ x.created_at := by
  induction l generalizing j with
  | nil => simp [selectOldest] at h
  | cons r rs ih =>
    simp only [selectOldest] at h
    cases hr : selectOldest rs with
    | none =>
      rw [hr] at h
      cases h
      have hrs : rs = [] := selectOldest_eq_none.mp hr
      subst hrs
      simp
    | some b =>
      rw [hr] at h
      obtain ⟨hbmem, hbmin⟩ := ih hr
      by_cases hlt : b.created_at < r.created_at
      · simp only [hlt, if_true] at h
        cases h
        refine ⟨List.mem_cons_of_mem _ hbmem, ?_⟩
        intro x hx
        rcases List.mem_cons.mp hx with hx | hx
        · subst hx; exact le_of_lt hlt
        · exact hbmin x hx
      · simp only [hlt, if_false] at h
        cases h
        refine ⟨List.mem_cons_self _ _, ?_⟩
        intro x hx
        rcases List.mem_cons.mp hx with hx | hx
        · subst hx; exact le_refl _
        · exact le_trans (not_lt.mp hlt) (hbmin x hx)

theorem mem_filter_pending {s : Store} {j : JobRow}
    (h : j ∈ s.jobs.filter (fun r => r.status == "pending")) :
    j ∈ s.jobs ∧ j.status = "pending" := by
  have := List.mem_filter.mp h
  exact ⟨this.1, by simpa using this.2⟩

theorem get_pending_job_none_char {now : Nat} {s : Store}
    (h : ∀ j ∈ s.jobs, j.status ≠ "pending") : get_pending_job now s = (none, s) := by
  have hfil : s.jobs.filter (fun r => r.status == "pending") = [] := by
    rw [List.filter_eq_nil]
    intro a ha
    simpa using h a ha
  simp [get_pending_job, hfil, selectOldest]

theorem get_pending_job_some_char {now : Nat} {s : Store} {aj : AdaptedJob} {s' : Store}
    (h : get_pending_job now s = (some aj, s')) :
    ∃ j ∈ s.jobs, j.status = "pending" ∧
      (∀ x ∈ s.jobs, x.status = "pending" → j.created_at ≤ x.created_at) ∧
      aj = adaptJob j ∧ aj.job_id = j.id ∧
      s' = { s with jobs := s.jobs.map (claimRow now j.id) } := by
  unfold get_pending_job at h
  cases hsel : selectOldest (s.jobs.filter (fun r => r.status == "pending")) with
  | none => rw [hsel] at h; cases h
  | some j =>
    rw [hsel] at h
    obtain ⟨hmem, hmin⟩ := selectOldest_spec hsel
    obtain ⟨hjmem, hjpend⟩ := mem_filter_pending hmem
    cases h
    refine ⟨j, hjmem, hjpend, ?_, rfl, rfl, rfl⟩
    intro x hx hxp
    exact hmin x (List.mem_filter.mpr ⟨hx, by simpa using hxp⟩)

theorem get_pending_job_pending_exists {now : Nat} {s : Store}
    (h : ∃ j ∈ s.jobs, j.status = "pending") :
    (get_pending_job now s).1.isSome := by
  obtain ⟨j, hj, hjp⟩ := h
  unfold get_pending_job
  cases hsel : selectOldest (s.jobs.filter (fun r => r.status == "pending")) with
  | none =>
    have : s.jobs.filter (fun r => r.status == "pending") = [] :=
      selectOldest_eq_none.mp hsel
    have hmem : j ∈ s.jobs.filter (fun r => r.status == "pending") :=
      List.mem_filter.mpr ⟨hj, by simpa using hjp⟩
    rw [this] at hmem
    cases hmem
  | some b => rfl

/-- C2: the claim operation `get_pending_job` is one atomic
select-and-update: when no pending row exists it returns `None` and
leaves the store unchanged; when pending rows exist it returns the
adapted fields of a pending job whose `created_at` is minimal among all
pending rows, and the resulting store is exactly the input store with
that row transitioned to `processing` with its started timestamp set (by
`claimRow`, the SET clause of the same statement). -/
theorem get_pending_job_contract (now : Nat) (s : Store) :
    ((∀ j ∈ s.jobs, j.status ≠ "pending") → get_pending_job now s = (none, s)) ∧
    ((∃ j ∈ s.jobs, j.status = "pending") →
      ∃ aj s', get_pending_job now s = (some aj, s') ∧
        ∃ j ∈ s.jobs, j.status = "pending" ∧
          (∀ x ∈ s.jobs, x.status = "pending" → j.created_at ≤ x.created_at) ∧
          aj = adaptJob j ∧
          s' = { s with jobs := s.jobs.map (claimRow now j.id) }) := by
  constructor
  · exact get_pending_job_none_char
  · intro hex
    have hsome := @get_pending_job_pending_exists now s hex
    cases hres : get_pending_job now s with
    | mk fst snd =>
      cases fst with
      | none => rw [hres] at hsome; simp at hsome
      | some aj =>
        obtain ⟨j, hjm, hjp, hmin, haj, _, hs⟩ := get_pending_job_some_char hres
        exact ⟨aj, snd, rfl, j, hjm, hjp, hmin, haj, hs⟩

/-- C2 witness: on a store with no pending row the claim returns `None`
unchanged; on a store with two pending jobs the claim returns the older
one, transitioned to `processing`. -/
theorem get_pending_job_contract_witness :
    (get_pending_job 7 storeNoPending = (none, storeNoPending)) ∧
    (∃ aj s', get_pending_job 7 storeC2 = (some aj, s') ∧
      ∃ j ∈ storeC2.jobs, j.status = "pending" ∧
        (∀ x ∈ storeC2.jobs, x.status = "pending" → j.created_at ≤ x.created_at) ∧
        aj = adaptJob j ∧
        s' = { storeC2 with jobs := storeC2.jobs.map (claimRow 7 j.id) }) :=
  ⟨(get_pending_job_contract 7 storeNoPending).1 (by decide),
   (get_pending_job_contract 7 storeC2).2 (by decide)⟩

theorem claimRow_id (now : Nat) (cid : String) (r : JobRow) : (claimRow now cid r).id = r.id := by
  unfold claimRow; split <;> rfl

theorem claimRow_ne (now : Nat) (cid : String) (r : JobRow) (h : r.id ≠ cid) :
    claimRow now cid r = r := by
  unfold claimRow; simp [h]

theorem claimRow_eq (now : Nat) (r : JobRow) :
    claimRow now r.id r = { r with status := "processing", started_at := some now, updated_at := now } := by
  unfold claimRow; simp

theorem save_analysis_results_jobs (f : Bool) (now : Nat) (j : String)
    (fi : List PyVal) (s : Store) : (save_analysis_results f now j fi s).jobs = s.jobs := by
  simp only [save_analysis_results]
  split
  · rfl
  · split
    · rfl
    · cases buildInsightRow now j (lookupJobFileId s j) fi <;> rfl

theorem update_job_status_row_ne {now : Nat} {job_id st : String} {em : Option String}
    {s : Store} {r : JobRow} (hr : r ∈ s.jobs) (hne : r.id ≠ job_id) :
    r ∈ (update_job_status now job_id st em s).jobs := by
  unfold update_job_status
  exact List.mem_map.mpr ⟨r, hr, by simp [hne]⟩

theorem reset_job_to_pending_row_ne {job_id : String} {s : Store} {r : JobRow}
    (hr : r ∈ s.jobs) (hne : r.id ≠ job_id) :
    r ∈ (reset_job_to_pending job_id s).jobs := by
  unfold reset_job_to_pending
  exact List.mem_map.mpr ⟨r, hr, by simp [hne]⟩

theorem update_job_status_ids (now : Nat) (job_id st : String) (em : Option String) (s : Store) :
    (update_job_status now job_id st em s).jobs.map (fun r => r.id) =
      s.jobs.map (fun r => r.id) := by
  unfold update_job_status
  rw [List.map_map]
  apply List.map_congr_left
  intro a _
  by_cases h : a.id = job_id
  · simp only [Function.comp_apply, h, if_true]
    split <;> (try split) <;> simp [h]
  · simp [Function.comp_apply, h]

theorem reset_job_to_pending_ids (job_id : String) (s : Store) :
    (reset_job_to_pending job_id s).jobs.map (fun r => r.id) =
      s.jobs.map (fun r => r.id) := by
  unfold reset_job_to_pending
  rw [List.map_map]
  apply List.map_congr_left
  intro a _
  by_cases h : a.id = job_id <;> simp [Function.comp_apply, h]

theorem claim_ids (now : Nat) (cid : String) (s : Store) :
    (s.jobs.map (claimRow now cid)).map (fun r => r.id) = s.jobs.map (fun r => r.id) := by
  rw [List.map_map]
  apply List.map_congr_left
  intro a _
  simp [Function.comp_apply, claimRow_id]

theorem finishStore_jobs_ids (j : String) (s : Store) (out : FinishOut) :
    (finishStore j s out).jobs.map (fun r => r.id) = s.jobs.map (fun r => r.id) := by
  cases out with
  | completed f fi now =>
    simp only [finishStore]
    rw [update_job_status_ids]
    rw [save_analysis_results_jobs]
  | wfFailed e now =>
    simp only [finishStore]
    exact update_job_status_ids ..
  | raised e now =>
    simp only [finishStore]
    split
    · exact reset_job_to_pending_ids ..
    · exact update_job_status_ids ..

theorem finishStore_row_ne {j : String} {s : Store} {out : FinishOut} {r : JobRow}
    (hr : r ∈ s.jobs) (hne : r.id ≠ j) : r ∈ (finishStore j s out).jobs := by
  cases out with
  | completed f fi now =>
    simp only [finishStore]
    apply update_job_status_row_ne _ hne
    rw [save_analysis_results_jobs]
    exact hr
  | wfFailed e now =>
    simp only [finishStore]
    exact update_job_status_row_ne hr hne
  | raised e now =>
    simp only [finishStore]
    split
    · exact reset_job_to_pending_row_ne hr hne
    · exact update_job_status_row_ne hr hne

theorem sysInv_preserved {σ1 σ2 : Sys} (hstep : SysStep σ1 σ2) (hinv : SysInv σ1) :
    SysInv σ2 := by
  obtain ⟨hu, hhold⟩ := hinv
  cases hstep with
  | claim r now aj s' hclaim =>
    obtain ⟨j, hjm, hjp, _, haj, hajid, hs⟩ := get_pending_job_some_char hclaim
    constructor
    · unfold uniqueIds at *
      rw [hs]
      show ((σ1.store.jobs.map (claimRow now j.id)).map (fun r => r.id)).Nodup
      rw [claim_ids]
      exact hu
    · intro r1 j1 hmem
      have hclaimedRow : claimRow now j.id j ∈ s'.jobs := by
        rw [hs]
        exact List.mem_map.mpr ⟨j, hjm, rfl⟩
      rcases List.mem_cons.mp hmem with hmem | hmem
      · -- the new hold: the claimed job, now processing
        injection hmem with hr1 hj1
        subst hr1
        subst hj1
        constructor
        · refine ⟨claimRow now j.id j, hclaimedRow, ?_, ?_⟩
          · rw [claimRow_id, hajid]
          · rw [claimRow_eq]
        · intro r2 h2
          rcases List.mem_cons.mp h2 with h2 | h2
          · exact congrArg Prod.fst h2
          · -- some old holder already held the claimed (pending) job: impossible
            exfalso
            obtain ⟨⟨row, hrow, hrid, hrst⟩, _⟩ := hhold r2 aj.job_id h2
            have hrowj : row = j :=
              List.inj_on_of_nodup_map hu hrow hjm (by rw [hrid, hajid])
            rw [hrowj, hjp] at hrst
            exact absurd hrst (by decide)
      · -- an old hold: its row is untouched by the claim (different id)
        obtain ⟨⟨row, hrow, hrid, hrst⟩, huniq⟩ := hhold r1 j1 hmem
        have hne : row.id ≠ j.id := by
          intro he
          have hrowj : row = j := List.inj_on_of_nodup_map hu hrow hjm he
          rw [hrowj, hjp] at hrst
          exact absurd hrst (by decide)
        constructor
        · refine ⟨row, ?_, hrid, hrst⟩
          rw [hs]
          exact List.mem_map.mpr ⟨row, hrow, claimRow_ne _ _ _ hne⟩
        · intro r2 h2
          rcases List.mem_cons.mp h2 with h2 | h2
          · exfalso
            injection h2 with _ h2b
            -- j1 would be the claimed job, but its row is processing
            apply hne
            rw [hrid, h2b, hajid]
          · exact huniq r2 h2
  | claimIdle now h => exact ⟨hu, hhold⟩
  | finish r j out hmem =>
    constructor
    · unfold uniqueIds at *
      rw [finishStore_jobs_ids]
      exact hu
    · intro r1 j1 h1
      have h1' := List.mem_filter.mp h1
      obtain ⟨⟨row, hrow, hrid, hrst⟩, huniq⟩ := hhold r1 j1 h1'.1
      have hne : j1 ≠ j := by
        intro he
        subst he
        have hr1 : r1 = r := (huniq r hmem).symm
        subst hr1
        simp at h1'
      constructor
      · exact ⟨row, finishStore_row_ne hrow (by rw [hrid]; exact hne), hrid, hrst⟩
      · intro r2 h2
        exact huniq r2 (List.mem_filter.mp h2).1

theorem sysInv_of_reach {σ0 σ : Sys} (h0 : SysInv σ0) (hr : SysReach σ0 σ) : SysInv σ := by
  induction hr with
  | refl => exact h0
  | tail _ hstep ih => exact sysInv_preserved hstep ih

/-- C7: under any interleaving of concurrently stepping runners against a
store with unique job ids, no two runners ever hold the same job at once:
the atomic claim (`get_pending_job`, whose `FOR UPDATE SKIP LOCKED`
selection serializes concurrent claimers without blocking) only hands out
`pending` rows and flips them to `processing` in the same statement, so a
job already held - hence `processing` - can never be claimed again before
its holder releases it. -/
theorem no_double_claim (σ0 σ : Sys) (hinit : σ0.holding = [] ∧ uniqueIds σ0.store)
    (hreach : SysReach σ0 σ) :
    ∀ r1 r2 j, (r1, j) ∈ σ.holding → (r2, j) ∈ σ.holding → r1 = r2 := by
  have hinv : SysInv σ := by
    apply sysInv_of_reach _ hreach
    refine ⟨hinit.2, ?_⟩
    intro r j hmem
    rw [hinit.1] at hmem
    cases hmem
  intro r1 r2 j h1 h2
  obtain ⟨_, huniq⟩ := hinv.2 r1 j h1
  exact (huniq r2 h2).symm

/-- C7 witness: a concrete trace in which runner 0 claims the only job;
any two holders of that job in the reached state coincide. -/
theorem no_double_claim_witness :
    ((0, "j1") ∈ sysW1.holding) ∧ (0 : Nat) = 0 :=
  ⟨by decide,
   no_double_claim sysW0 sysW1 ⟨rfl, by unfold uniqueIds; decide⟩
     (SysReach.tail SysReach.refl (SysStep.claim sysW0 0 5 ajW storeOneJobClaimed rfl))
     0 0 "j1" (by decide) (by decide)⟩

theorem except_ok_bind {α β : Type} (a : α) (f : α → Except PyErr β) :
    ((Except.ok a : Except PyErr α) >>= f) = f a := rfl

theorem failCycle_first : failCycle storeOneJob = storeCycled := rfl

theorem failCycle_fix : failCycle storeCycled = storeCycled := rfl

theorem iterFailCycle_cycled : ∀ n : Nat, iterFailCycle n storeCycled = storeCycled := by
  intro n
  induction n with
  | zero => rfl
  | succ m ih =>
    show iterFailCycle m (failCycle storeCycled) = storeCycled
    rw [failCycle_fix]
    exact ih

/-- C1 (documenting the code bug): a job whose processing raises on every
attempt is never marked failed and its retry_count is never incremented -
the reset path of the retry policy does not increment `retry_count`
(only `update_job_status .. "failed"` does), so `should_retry_job` reads
0 < 3 forever and the job is reset to pending after every failure,
unboundedly, contradicting the documented ceiling of 3 retries ending in
`failed` with retry_count == 3. -/
theorem repeated_exception_job_never_fails (n : Nat) :
    (iterFailCycle n storeOneJob).jobs.map (fun r => (r.id, r.status, r.retry_count)) =
      [("j1", "pending", 0)] ∧
    should_retry_job (iterFailCycle n storeOneJob) "j1" = true := by
  cases n with
  | zero => exact ⟨by decide, by decide⟩
  | succ m =>
    have h : iterFailCycle (m + 1) storeOneJob = storeCycled := by
      show iterFailCycle m (failCycle storeOneJob) = storeCycled
      rw [failCycle_first]
      exact iterFailCycle_cycled m
    rw [h]
    exact ⟨by decide, by decide⟩

/-- C4 counterexample: a claimed job with full retry budget
(retry_count = 0) whose pipeline invocation reports failure is marked
permanently failed (with retry_count incremented to 1), not reset to
pending. -/
theorem pipeline_failure_not_retried :
    should_retry_job storeOneJobClaimed "j1" = true ∧
    process_single_job wfErrorReturn false 6 ajW storeOneJobClaimed =
      .ok (false, storeFailedOnce) ∧
    storeFailedOnce.jobs.map (fun r => (r.status, r.retry_count)) = [("failed", 1)] :=
  ⟨by decide, rfl, by decide⟩

/-- C4 amended: when the pipeline invocation returns (reports a
non-success status) rather than raising, the Runner marks the job failed
immediately with the reported error - the retry budget is never
consulted on this path; the reset-to-pending retry policy applies only
when the workflow call raises. -/
theorem workflow_reported_failure_marks_failed
    (wfCall : List String → Option String → WfCall) (dbFault : Bool) (now : Nat)
    (job : AdaptedJob) (s : Store) (res : WfRes) (bd : String)
    (hbd : job.business_description = some bd)
    (hfp : get_file_paths s job.file_ids ≠ [])
    (hwf : wfCall (get_file_paths s job.file_ids) job.business_description = .returns res)
    (hst : res.status ≠ "success") :
    process_single_job wfCall dbFault now job s =
      .ok (false, update_job_status now job.job_id "failed"
        (some (res.error.getD "Unknown workflow error")) s) := by
  unfold process_single_job
  rw [hbd] at hwf ⊢
  obtain ⟨a, l, hl⟩ := List.exists_cons_of_ne_nil hfp
  rw [hl] at hwf ⊢
  simp only [pySliceOptStr, except_ok_bind, List.isEmpty_cons, Bool.false_eq_true,
    if_false, hwf, hst, ite_false]
  rfl

/-- C10: an error while persisting results (store fault or failing
INSERT) makes `save_analysis_results` return with the store unchanged -
no row, no exception - and the success path of the Runner still marks
the job `completed`, so a job can be `completed` with no result row. -/
theorem completed_job_without_result_row :
    (∀ (now : Nat) (job_id : String) (fi : List PyVal) (s : Store),
        save_analysis_results true now job_id fi s = s) ∧
    (∀ (wfCall : List String → Option String → WfCall) (now : Nat)
        (job : AdaptedJob) (s : Store) (res : WfRes) (bd : String),
        job.business_description = some bd →
        get_file_paths s job.file_ids ≠ [] →
        wfCall (get_file_paths s job.file_ids) job.business_description = .returns res →
        res.status = "success" →
        process_single_job wfCall true now job s =
          .ok (true, update_job_status now job.job_id "completed" none s) ∧
        (update_job_status now job.job_id "completed" none s).insights = s.insights ∧
        (∀ r ∈ (update_job_status now job.job_id "completed" none s).jobs,
            r.id = job.job_id → r.status = "completed")) := by
  constructor
  · intro now job_id fi s
    rfl
  · intro wfCall now job s res bd hbd hfp hwf hst
    refine ⟨?_, rfl, ?_⟩
    · unfold process_single_job
      rw [hbd] at hwf ⊢
      obtain ⟨a, l, hl⟩ := List.exists_cons_of_ne_nil hfp
      rw [hl] at hwf ⊢
      simp only [pySliceOptStr, except_ok_bind, List.isEmpty_cons, Bool.false_eq_true,
        if_false, hwf, hst, ite_true]
      rfl
    · intro r hr hrid
      unfold update_job_status at hr
      obtain ⟨a, ha, hfa⟩ := List.mem_map.mp hr
      by_cases hid : a.id = job.job_id
      · rw [if_pos hid] at hfa
        rw [if_pos rfl] at hfa
        rw [← hfa]
      · rw [if_neg hid] at hfa
        rw [hfa] at hid
        exact absurd hrid hid

/-- C4 witness (for the amended theorem): the concrete claimed job whose
pipeline reports failure is marked failed with the reported error. -/
theorem workflow_reported_failure_marks_failed_witness :
    process_single_job wfErrorReturn false 6 ajW storeOneJobClaimed =
      .ok (false, update_job_status 6 "j1" "failed" (some "stage failed") storeOneJobClaimed) :=
  workflow_reported_failure_marks_failed wfErrorReturn false 6 ajW storeOneJobClaimed
    (run_complete_workflow graphFailW
      (get_file_paths storeOneJobClaimed ajW.file_ids) ajW.business_description)
    "desc" rfl (by decide) rfl (by decide)

/-- C10 witness: a concrete successful job with a faulting result INSERT
ends `completed` while the insights table stays empty. -/
theorem completed_job_without_result_row_witness :
    process_single_job wfSuccessReturn true 6 ajW storeOneJobClaimed =
      .ok (true, update_job_status 6 "j1" "completed" none storeOneJobClaimed) ∧
    (update_job_status 6 "j1" "completed" none storeOneJobClaimed).insights = [] := by
  have h := (completed_job_without_result_row).2 wfSuccessReturn 6 ajW storeOneJobClaimed
    (run_complete_workflow graphOkW
      (get_file_paths storeOneJobClaimed ajW.file_ids) ajW.business_description)
    "desc" rfl (by decide) rfl rfl
  exact ⟨h.1, h.2.1⟩

theorem exceptBind_eq_ok {α β : Type} {x : Except PyErr α} {f : α → Except PyErr β} {b : β} :
    x >>= f = .ok b ↔ ∃ a, x = .ok a ∧ f a = .ok b := by
  cases x <;> simp [Bind.bind, Except.bind]

theorem exceptPure_eq_ok {α : Type} {a b : α} :
    (pure a : Except PyErr α) = .ok b ↔ a = b := by
  constructor
  · intro h
    cases h
    rfl
  · intro h
    rw [h]
    rfl

/-- C6: the Result Writer persists, for a non-empty insight list, exactly
one row whose confidence_score is the arithmetic mean of the per-insight
confidences extracted by `extract_confidence_score`; with zero insights
it writes nothing at all.  The trailing conjuncts pin the extraction
rules: an in-range explicit score is taken as is, a [0,100] score is
rescaled by /100, and the defaults are 0.85 (findings plus
recommendations), 0.3 (error), 0.7 (otherwise). -/
theorem save_analysis_results_confidence_mean :
    (∀ (fault : Bool) (now : Nat) (job_id : String) (s : Store),
        save_analysis_results fault now job_id [] s = s) ∧
    (∀ (now : Nat) (job_id : String) (insights : List PyVal) (s : Store) (row : InsightRow),
        insights ≠ [] →
        buildInsightRow now job_id (lookupJobFileId s job_id) insights = .ok row →
        (save_analysis_results false now job_id insights s).insights = s.insights ++ [row] ∧
        ∃ confs, insights.mapM extract_confidence_score = Except.ok confs ∧
          row.confidence_score = confs.sum / insights.length) ∧
    extract_confidence_score (.dict [("confidence", .num (17/20))]) = .ok (17/20) ∧
    extract_confidence_score (.dict [("confidence", .num 85)]) = .ok (85/100) ∧
    extract_confidence_score (.dict [("key_findings", .list [.str "f"]),
      ("recommendations", .list [.str "r"])]) = .ok (85/100) ∧
    extract_confidence_score (.dict [("error", .str "e")]) = .ok (3/10) ∧
    extract_confidence_score (.dict []) = .ok (7/10) := by
  refine ⟨?_, ?_, ?_, ?_, ?_, ?_, ?_⟩
  · intro fault now job_id s
    cases fault <;> rfl
  · intro now job_id insights s row hne hrow
    constructor
    · simp only [save_analysis_results, if_false, Bool.false_eq_true]
      rw [List.isEmpty_eq_false_iff_exists_mem.mpr
        (by rcases insights with _ | ⟨a, l⟩; exact absurd rfl hne; exact ⟨a, List.mem_cons_self a l⟩)]
      simp only [if_false, Bool.false_eq_true]
      rw [hrow]
    · obtain ⟨i0, irest, rfl⟩ : ∃ a l, insights = a :: l := by
        rcases insights with _ | ⟨a, l⟩
        · exact absurd rfl hne
        · exact ⟨a, l, rfl⟩
      simp only [buildInsightRow, List.head?, exceptBind_eq_ok, exceptPure_eq_ok] at hrow
      obtain ⟨confs, hmap, hrest⟩ := hrow
      refine ⟨confs, hmap, ?_⟩
      obtain ⟨t, _, hrest⟩ := hrest
      obtain ⟨ml, _, hrest⟩ := hrest
      obtain ⟨fl, _, hrest⟩ := hrest
      obtain ⟨rl, _, hrest⟩ := hrest
      obtain ⟨vl, _, hrest⟩ := hrest
      obtain ⟨ga, _, hrest⟩ := hrest
      obtain ⟨st, _, hrest⟩ := hrest
      obtain ⟨su, _, hrest⟩ := hrest
      rw [← hrest]
      simp
  · norm_num [extract_confidence_score, extractScoreLoop, pyContains, pySubscript,
      pyLookup, pyAsNum, pyGet, pyGetD, pyTruthy, Bind.bind, Except.bind, pure, Except.pure]
  · norm_num [extract_confidence_score, extractScoreLoop, pyContains, pySubscript,
      pyLookup, pyAsNum, pyGet, pyGetD, pyTruthy, Bind.bind, Except.bind, pure, Except.pure]
  · rfl
  · rfl
  · rfl

/-- C6 witness: insights with explicit scores 0.9, 0.7, 0.5 are persisted
as one row whose confidence_score is exactly 0.7. -/
theorem save_analysis_results_confidence_mean_witness :
    ∃ row, (save_analysis_results false 9 "j1" insightsW storeOneJob).insights = [row] ∧
      row.confidence_score = 7 / 10 := by
  obtain ⟨row, hb⟩ :
      ∃ row, buildInsightRow 9 "j1" (lookupJobFileId storeOneJob "j1") insightsW = .ok row :=
    ⟨_, rfl⟩
  obtain ⟨hsave, confs, hmap, hconf⟩ :=
    save_analysis_results_confidence_mean.2.1 9 "j1" insightsW storeOneJob row
      (by unfold insightsW; exact List.cons_ne_nil _ _) hb
  refine ⟨row, ?_, ?_⟩
  · rw [hsave]
    rfl
  · rw [hconf]
    have hv : confs = [mkRat 9 10, mkRat 7 10, mkRat 1 2] := by
      have h2 : insightsW.mapM extract_confidence_score =
          .ok [mkRat 9 10, mkRat 7 10, mkRat 1 2] := rfl
      rw [h2] at hmap
      exact Except.ok.inj hmap.symm
    rw [hv]
    norm_num [insightsW]

/-- C3 counterexample: a code string whose `analyze_data` returns an empty
dict makes `execute_analysis_code` return that dict unchanged - neither
the four expected fields nor an `error` field are present, so the
returned object is not always well-formed as claimed. -/
theorem execute_analysis_code_passthrough_counterexample :
    execute_analysis_code ⟨.callReturns (.dict []), "captured stdout"⟩ (.list []) = .dict [] ∧
    wellFormedResult (.dict []) = false :=
  ⟨rfl, rfl⟩

/-- C3 amended: `execute_analysis_code` never propagates an exception
(every raising path of the source maps to a returned object): on every
path except a normal `analyze_data` return the result carries an `error`
field (with defaulted expected fields on the execution-failure paths,
whose full shape the last conjunct pins down), while a normal return is
passed through unchanged, well-formed or not. -/
theorem execute_analysis_code_total :
    (∀ (sem : ExecSem) (fps : PyVal),
        (∃ v, sem.outcome = .callReturns v ∧ execute_analysis_code sem fps = v) ∨
        hasKey (execute_analysis_code sem fps) "error" = true) ∧
    (∀ (msg out : String) (fps : PyVal),
        hasKey (execute_analysis_code ⟨.execRaises msg, out⟩ fps) "error" = true ∧
        hasKey (execute_analysis_code ⟨.execRaises msg, out⟩ fps) "metrics" = true ∧
        hasKey (execute_analysis_code ⟨.execRaises msg, out⟩ fps) "key_findings" = true ∧
        hasKey (execute_analysis_code ⟨.execRaises msg, out⟩ fps) "visualizations" = true ∧
        hasKey (execute_analysis_code ⟨.execRaises msg, out⟩ fps) "recommendations" = true ∧
        wellFormedResult (execute_analysis_code ⟨.callRaises msg, out⟩ fps) = true ∧
        wellFormedResult (execute_analysis_code ⟨.noFunction, out⟩ fps) = true) := by
  constructor
  · intro sem fps
    rcases sem with ⟨o, cap⟩
    cases o with
    | execRaises m => exact Or.inr rfl
    | noFunction => exact Or.inr rfl
    | callRaises m => exact Or.inr rfl
    | callReturns v => exact Or.inl ⟨v, rfl, rfl⟩
  · intro msg out fps
    exact ⟨rfl, rfl, rfl, rfl, rfl, rfl, rfl⟩

/-- C5 counterexample: the builtins whitelist handed to synthesized code
contains `__import__`, which (by Python semantics) reaches the
filesystem, network and process-spawning modules, so the claim that no
such primitive is reachable beyond data-loading/plotting allowances is
false. -/
theorem safe_builtins_reach_dangerous_capabilities :
    ("__import__", SafeBuiltin.importFn) ∈ get_safe_builtins ∧
    capabilityReachable get_safe_builtins .processSpawn = true ∧
    ¬ (∀ c : SysCapability, capabilityReachable get_safe_builtins c = false) :=
  ⟨by decide, rfl, fun h => absurd (h .processSpawn) (by decide)⟩

/-- C5 amended: execution runs against the fixed explicit whitelist and
the captured stdout is discarded (the result never depends on it), but
through the whitelisted `__import__` entry the filesystem, network and
process-spawn capabilities remain reachable; every other whitelisted
builtin grants none of them. -/
theorem sandbox_isolation_amended :
    (∀ (o : ExecOutcome) (out1 out2 : String) (fps : PyVal),
        execute_analysis_code ⟨o, out1⟩ fps = execute_analysis_code ⟨o, out2⟩ fps) ∧
    capabilityReachable get_safe_builtins .fileSystemAccess = true ∧
    capabilityReachable get_safe_builtins .networkAccess = true ∧
    capabilityReachable get_safe_builtins .processSpawn = true ∧
    (∀ c, capabilityReachable (get_safe_builtins.filter (fun p => p.1 ≠ "__import__")) c = false) := by
  refine ⟨?_, rfl, rfl, rfl, ?_⟩
  · intro o out1 out2 fps
    rfl
  · intro c
    cases c <;> rfl

theorem find?_map_self {α β : Type} [BEq α] [LawfulBEq α] (g : α → β) (l : List α)
    (p : α) (hp : p ∈ l) :
    (((l.map (fun x => (x, g x))).find? (fun e => e.1 == p)).map (fun e => e.2)) = some (g p) := by
  induction l with
  | nil => cases hp
  | cons a t ih =>
    rcases List.mem_cons.mp hp with h | h
    · subst h
      simp [List.find?]
    · by_cases ha : a = p
      · subst ha
        simp [List.find?]
      · simp only [List.map_cons, List.find?]
        rw [show ((a, g a).1 == p) = false from beq_eq_false_iff_ne.mpr ha]
        exact ih h

/-- C8: the Data-Profile stage records, for every input file, exactly its
own profiling outcome - full metadata (columns, shape, samples, dtypes,
null counts, numeric/categorical lists) with the basename as filename
when the file loads, a per-file error entry when loading fails - each
entry a function of that file alone, so one failing file cannot disturb
the entries of the others, and the stage itself always returns. -/
theorem analyze_data_node_partial_failure_isolation
    (fs : FileOracle) (state : InsightState) :
    (∀ p ∈ state.files,
        (((analyze_data_node fs state).file_metadata.find? (fun e => e.1 == p)).map
          (fun e => e.2)) = some (profileEntry fs p)) ∧
    (∀ p df, load_dataframe fs p = .ok df →
        profileEntry fs p = .ok { format_dataframe_summary df with filename := basename p }) ∧
    (∀ p e, load_dataframe fs p = .error e → profileEntry fs p = .err e) ∧
    (analyze_data_node fs state).file_metadata.map (fun e => e.1) = state.files := by
  refine ⟨?_, ?_, ?_, ?_⟩
  · intro p hp
    exact find?_map_self (profileEntry fs) state.files p hp
  · intro p df h
    simp [profileEntry, h]
  · intro p e h
    simp [profileEntry, h]
  · have hcomp : ((fun (e : String × MetaEntry) => e.1) ∘ fun p => (p, profileEntry fs p)) =
        fun p => p := rfl
    simp [analyze_data_node, hcomp]

/-- C8 witness: three input files of which the second fails to load; the
metadata map holds the error entry for `b.csv` and full metadata for
`a.csv`. -/
theorem analyze_data_node_partial_failure_isolation_witness :
    ((((analyze_data_node fsW stateW8).file_metadata.find? (fun e => e.1 == "b.csv")).map
        (fun e => e.2)) = some (profileEntry fsW "b.csv")) ∧
    profileEntry fsW "b.csv" = .err "Failed to load b.csv: bad header" ∧
    profileEntry fsW "a.csv" = .ok { format_dataframe_summary dfW with filename := "a.csv" } :=
  ⟨(analyze_data_node_partial_failure_isolation fsW stateW8).1 "b.csv" (by decide),
   (analyze_data_node_partial_failure_isolation fsW stateW8).2.2.1 "b.csv"
     "Failed to load b.csv: bad header" rfl,
   (analyze_data_node_partial_failure_isolation fsW stateW8).2.1 "a.csv" dfW rfl⟩

/-- C9: every pipeline stage, on its success path and on each of its
error paths, returns the input state extended only with the fields it
owns plus the `current_step` marker - all other fields come through
unchanged (Data-Profile owns `file_metadata`; Business-Understanding
owns `business_understanding` and `help_suggestions`; File-Mapping owns
`file_mappings`; Insight-Generation owns `final_insights`). -/
theorem stage_frame_preservation
    (fs : FileOracle) (llm : LlmClient) (jsonParse : String → Option PyVal)
    (execOracle : String → PyVal → ExecSem) (nowIso : String) (state : InsightState) :
    ((analyze_data_node fs state).files = state.files ∧
     (analyze_data_node fs state).business_description = state.business_description ∧
     (analyze_data_node fs state).business_understanding = state.business_understanding ∧
     (analyze_data_node fs state).help_suggestions = state.help_suggestions ∧
     (analyze_data_node fs state).file_mappings = state.file_mappings ∧
     (analyze_data_node fs state).final_insights = state.final_insights) ∧
    ((understand_business_node llm jsonParse state).files = state.files ∧
     (understand_business_node llm jsonParse state).business_description = state.business_description ∧
     (understand_business_node llm jsonParse state).file_metadata = state.file_metadata ∧
     (understand_business_node llm jsonParse state).file_mappings = state.file_mappings ∧
     (understand_business_node llm jsonParse state).final_insights = state.final_insights) ∧
    ((map_files_to_insights_node llm jsonParse state).files = state.files ∧
     (map_files_to_insights_node llm jsonParse state).business_description = state.business_description ∧
     (map_files_to_insights_node llm jsonParse state).file_metadata = state.file_metadata ∧
     (map_files_to_insights_node llm jsonParse state).business_understanding = state.business_understanding ∧
     (map_files_to_insights_node llm jsonParse state).help_suggestions = state.help_suggestions ∧
     (map_files_to_insights_node llm jsonParse state).final_insights = state.final_insights) ∧
    ((generate_insights_node llm jsonParse execOracle nowIso state).files = state.files ∧
     (generate_insights_node llm jsonParse execOracle nowIso state).business_description = state.business_description ∧
     (generate_insights_node llm jsonParse execOracle nowIso state).file_metadata = state.file_metadata ∧
     (generate_insights_node llm jsonParse execOracle nowIso state).business_understanding = state.business_understanding ∧
     (generate_insights_node llm jsonParse execOracle nowIso state).help_suggestions = state.help_suggestions ∧
     (generate_insights_node llm jsonParse execOracle nowIso state).file_mappings = state.file_mappings) := by
  refine ⟨⟨rfl, rfl, rfl, rfl, rfl, rfl⟩, ?_, ?_, ?_⟩
  · cases llm with
    | none => exact ⟨rfl, rfl, rfl, rfl, rfl⟩
    | some complete =>
      cases h : understandAttempt complete jsonParse state with
      | ok v =>
        rcases v with ⟨bu, hs⟩
        simp [understand_business_node, h]
      | error e => simp [understand_business_node, h]
  · cases h : mapFilesAttempt llm jsonParse state with
    | ok mappings => simp [map_files_to_insights_node, h]
    | error e => simp [map_files_to_insights_node, h]
  · cases h : pyIter state.help_suggestions with
    | error e => simp [generate_insights_node, h]
    | ok suggestions =>
      rcases h2 : genInsightsLoop llm jsonParse execOracle nowIso state suggestions [] with ⟨acc, b⟩
      cases b <;> simp [generate_insights_node, h, h2]
